import Mathlib

/-!
Verification of the sync engine of `mautrix/client/syncer.py`:
a shallow embedding of the handler registry, the event dispatcher,
the response classifier (`handle_sync`) and the sync loop (`_start`),
together with theorems settling the specification's claims.
-/

set_option maxRecDepth 2000

/-- The coarse class of an event type (`EventType.Class` in mautrix.types). -/
inductive EClass where
  | unknown
  | message
  | state
  | ephemeral
  | accountData
  | toDevice
deriving DecidableEq, Repr

/-- An event type: an identifier together with its coarse class. -/
structure EventType where
  t : String
  cls : EClass
deriving DecidableEq, Repr

/-- `EventType.with_class`: the same identifier with the class replaced. -/
def EventType.with_class (ty : EventType) (c : EClass) : EventType :=
  { ty with cls := c }

/-- The distinguished `EventType.ALL` wildcard value. -/
def EventType.ALL : EventType :=
  { t := "__ALL__", cls := .unknown }

/-- `InternalEventType`: engine-generated lifecycle/meta event types. -/
inductive InternalEventType where
  | SYNC_STARTED
  | SYNC_ERRORED
  | SYNC_SUCCESSFUL
  | SYNC_STOPPED
  | JOIN
  | PROFILE_CHANGE
  | INVITE
  | REJECT_INVITE
  | DISINVITE
  | LEAVE
  | KICK
  | BAN
  | UNBAN
  | DEVICE_LISTS
  | DEVICE_OTK_COUNT
deriving DecidableEq, Repr

/-- A key of the handler registry: `Union[EventType, InternalEventType]`. -/
inductive HKey where
  | etype (ty : EventType)
  | internal (ty : InternalEventType)
deriving DecidableEq, Repr

/-- `SyncStream`: the bitset flag tagging which part of the payload an event
came from.  Each field models one flag bit. -/
structure SyncStream where
  internal : Bool := false
  joinedRoom : Bool := false
  invitedRoom : Bool := false
  leftRoom : Bool := false
  timeline : Bool := false
  state : Bool := false
  ephemeral : Bool := false
  accountData : Bool := false
  toDevice : Bool := false
deriving DecidableEq, Repr

/-- Bitwise union of two `SyncStream` flags (Python `|`). -/
def SyncStream.union (a b : SyncStream) : SyncStream where
  internal := a.internal || b.internal
  joinedRoom := a.joinedRoom || b.joinedRoom
  invitedRoom := a.invitedRoom || b.invitedRoom
  leftRoom := a.leftRoom || b.leftRoom
  timeline := a.timeline || b.timeline
  state := a.state || b.state
  ephemeral := a.ephemeral || b.ephemeral
  accountData := a.accountData || b.accountData
  toDevice := a.toDevice || b.toDevice

def SyncStream.INTERNAL : SyncStream := { internal := true }

def SyncStream.JOINED_ROOM : SyncStream := { joinedRoom := true }

def SyncStream.INVITED_ROOM : SyncStream := { invitedRoom := true }

def SyncStream.LEFT_ROOM : SyncStream := { leftRoom := true }

def SyncStream.TIMELINE : SyncStream := { timeline := true }

def SyncStream.STATE : SyncStream := { state := true }

def SyncStream.EPHEMERAL : SyncStream := { ephemeral := true }

def SyncStream.ACCOUNT_DATA : SyncStream := { accountData := true }

def SyncStream.TO_DEVICE : SyncStream := { toDevice := true }

/-- Event content, reduced to what dispatch touches: whether reply-fallback
quoting content is present, plus an opaque remainder. -/
structure EventContent where
  hasReplyFallback : Bool
  body : String
deriving DecidableEq, Repr

/-- `MessageEventContent.trim_reply_fallback`: strips the reply-fallback
quoting content. -/
def trim_reply_fallback (c : EventContent) : EventContent :=
  { c with hasReplyFallback := false }

/-- A stripped state event (`StrippedStateEvent`), the reduced shape attached
to an invite as room-preview context. -/
structure StrippedEvent where
  ty : String
  state_key : Option String
  room_id : Option String
  content : EventContent
deriving DecidableEq, Repr

/-- A typed event as delivered to handlers.  `isMessage` models
`isinstance(event, MessageEvent)`; `state_key` models
`getattr(event, "state_key", None)`; `event_id` distinguishes an absent key
(`none`) from a key present with a null value (`some none`); `source` is the
`SyncStream` tag attached by dispatch. -/
structure MEvent where
  isMessage : Bool
  ty : EventType
  state_key : Option String
  content : EventContent
  room_id : Option String
  event_id : Option (Option String)
  origin_server_ts : Option Int
  invite_room_state : List StrippedEvent
  source : Option SyncStream
deriving DecidableEq, Repr

/-- A raw JSON event object from the sync payload.  `Option` fields model key
presence; `event_id : Option (Option String)` distinguishes an absent key from
a key holding null. -/
structure RawEvent where
  ty : String
  state_key : Option String
  content : EventContent
  room_id : Option String
  event_id : Option (Option String)
  origin_server_ts : Option Int
deriving DecidableEq, Repr

/-- Event types that the external codec decodes into `MessageEvent` instances.
Modelled from the spec: the event codec (`decode(rawEventObject) ->
typedEvent`) is an external collaborator, not part of the source; the message
event types of the protocol are the room-message family. -/
def messageEventTypes : List String :=
  ["m.room.message", "m.room.encrypted", "m.sticker"]

/-- Modelled from the spec: the external event codec applied to a joined-room
timeline event (`Event.deserialize`): message-typed raw events decode to
message events, everything else to a plain typed event carrying its raw
fields. -/
def Event.deserialize (r : RawEvent) : MEvent where
  isMessage := r.state_key.isNone && messageEventTypes.contains r.ty
  ty := { t := r.ty, cls := .unknown }
  state_key := r.state_key
  content := r.content
  room_id := r.room_id
  event_id := r.event_id
  origin_server_ts := r.origin_server_ts
  invite_room_state := []
  source := none

/-- Modelled from the spec: the external codec for state events
(`StateEvent.deserialize`); never a message event. -/
def StateEvent.deserialize (r : RawEvent) : MEvent where
  isMessage := false
  ty := { t := r.ty, cls := .unknown }
  state_key := r.state_key
  content := r.content
  room_id := r.room_id
  event_id := r.event_id
  origin_server_ts := r.origin_server_ts
  invite_room_state := []
  source := none

/-- Modelled from the spec: the external codec for top-level account-data
events (`AccountDataEvent.deserialize`). -/
def AccountDataEvent.deserialize (r : RawEvent) : MEvent :=
  StateEvent.deserialize r

/-- Modelled from the spec: the external codec for ephemeral events
(`EphemeralEvent.deserialize`). -/
def EphemeralEvent.deserialize (r : RawEvent) : MEvent :=
  StateEvent.deserialize r

/-- Modelled from the spec: the external codec for to-device events
(`ToDeviceEvent.deserialize`). -/
def ToDeviceEvent.deserialize (r : RawEvent) : MEvent :=
  StateEvent.deserialize r

/-- Modelled from the spec: the external codec for stripped state events
(`StrippedStateEvent.deserialize`). -/
def StrippedStateEvent.deserialize (r : RawEvent) : StrippedEvent where
  ty := r.ty
  state_key := r.state_key
  room_id := r.room_id
  content := r.content

/-- A handler entry: (handler id, wait-flag).  Handlers are identified by a
natural number; Python compares handler references by identity. -/
abbrev HandlerEntry := Nat × Bool

/-- The handler-registry portion of the `Syncer` state.  The Python `Dict` is
modelled as an insertion-ordered association list. -/
structure Syncer where
  global_event_handlers : List HandlerEntry
  event_handlers : List (HKey × List HandlerEntry)
  ignore_initial_sync : Bool
  ignore_first_sync : Bool
  mxid : String
deriving DecidableEq, Repr

/-- Association-list lookup, modelling `dict.__getitem__`/`dict.get`. -/
def assocGet (m : List (HKey × List HandlerEntry)) (k : HKey) :
    Option (List HandlerEntry) :=
  match m with
  | [] => none
  | (k', v) :: rest => if k' = k then some v else assocGet rest k

/-- Replace the value stored at key `k` (key assumed present), keeping
insertion order, modelling in-place mutation of the list held by the dict. -/
def assocSet (m : List (HKey × List HandlerEntry)) (k : HKey)
    (v : List HandlerEntry) : List (HKey × List HandlerEntry) :=
  match m with
  | [] => []
  | (k', v') :: rest =>
    if k' = k then (k', v) :: rest else (k', v') :: assocSet rest k v

/-- Delete the entry at key `k`, modelling `del dict[k]`. -/
def assocDel (m : List (HKey × List HandlerEntry)) (k : HKey) :
    List (HKey × List HandlerEntry) :=
  match m with
  | [] => []
  | (k', v') :: rest =>
    if k' = k then rest else (k', v') :: assocDel rest k

/-- Python `list.remove(x)`: remove the first occurrence of `x`, or report
failure (`ValueError`) when `x` is absent. -/
def listRemove (l : List HandlerEntry) (x : HandlerEntry) :
    Option (List HandlerEntry) :=
  match l with
  | [] => none
  | y :: ys => if y = x then some ys else (listRemove ys x).map (y :: ·)

/-- `Syncer.add_event_handler`: append `(handler, wait_sync)` to the global
list when the type is `ALL`, else to that type's list (creating it). -/
def add_event_handler (s : Syncer) (event_type : HKey) (handler : Nat)
    (wait_sync : Bool) : Syncer :=
  if event_type = HKey.etype EventType.ALL then
    { s with global_event_handlers :=
        s.global_event_handlers ++ [(handler, wait_sync)] }
  else
    match assocGet s.event_handlers event_type with
    | some l =>
      { s with event_handlers :=
          assocSet s.event_handlers event_type (l ++ [(handler, wait_sync)]) }
    | none =>
      { s with event_handlers :=
          s.event_handlers ++ [(event_type, [(handler, wait_sync)])] }

/-- `Syncer.remove_event_handler`: a single `try` block removes
`(handler, True)` and then `(handler, False)`; a `KeyError`/`ValueError`
raised by either removal aborts the rest of the block, leaving any removal
already performed in effect (the lists are mutated in place). -/
def remove_event_handler (s : Syncer) (event_type : HKey) (handler : Nat) :
    Syncer :=
  if event_type = HKey.etype EventType.ALL then
    match listRemove s.global_event_handlers (handler, true) with
    | none => s
    | some l1 =>
      match listRemove l1 (handler, false) with
      | none => { s with global_event_handlers := l1 }
      | some l2 => { s with global_event_handlers := l2 }
  else
    match assocGet s.event_handlers event_type with
    | none => s
    | some hs =>
      match listRemove hs (handler, true) with
      | none => s
      | some l1 =>
        match listRemove l1 (handler, false) with
        | none =>
          { s with event_handlers := assocSet s.event_handlers event_type l1 }
        | some l2 =>
          if l2 = [] then
            { s with event_handlers := assocDel s.event_handlers event_type }
          else
            { s with event_handlers :=
                assocSet s.event_handlers event_type l2 }

/-- The result of one dispatch call: every matching handler invocation is
started (`started`, in scheduling order); only the listed `waited` tasks are
returned to the caller to be awaited. -/
structure DispatchResult where
  started : List HandlerEntry
  waited : List Nat
deriving DecidableEq, Repr

/-- `Syncer.dispatch_manual_event`: schedule one invocation per matching
entry (global handlers first when included, registration order within each
group) and return the tasks whose entry has the wait-flag set (or all of
them under `force_synchronous`). -/
def dispatch_manual_event (s : Syncer) (event_type : HKey)
    (include_global_handlers : Bool) (force_synchronous : Bool) :
    DispatchResult :=
  let handlers := (assocGet s.event_handlers event_type).getD []
  let handlers :=
    if include_global_handlers then s.global_event_handlers ++ handlers
    else handlers
  { started := handlers
    waited := (handlers.filter (fun hw => force_synchronous || hw.2)).map
      (·.1) }

/-- The event-mutation half of `Syncer.dispatch_event`: trim the reply
fallback when the event is a `MessageEvent` instance, resolve the type's
class from the state key and the stream-origin bits (in the source's test
order), and attach the source tag. -/
def resolveEvent (event : MEvent) (source : SyncStream) : MEvent :=
  let event :=
    if event.isMessage then
      { event with content := trim_reply_fallback event.content }
    else event
  let event :=
    if event.state_key.isSome then
      { event with ty := event.ty.with_class .state }
    else if source.ephemeral then
      { event with ty := event.ty.with_class .ephemeral }
    else if source.accountData then
      { event with ty := event.ty.with_class .accountData }
    else if source.toDevice then
      { event with ty := event.ty.with_class .toDevice }
    else
      { event with ty := event.ty.with_class .message }
  { event with source := some source }

/-- `Syncer.dispatch_event`: mutate the event as `resolveEvent`, then
dispatch it manually under its resolved type with global handlers included.
Returns the mutated event and the dispatch result. -/
def dispatch_event (s : Syncer) (event : MEvent) (source : SyncStream) :
    MEvent × DispatchResult :=
  let event := resolveEvent event source
  (event, dispatch_manual_event s (HKey.etype event.ty) true false)

/-- One room object of the sync payload (`join`/`invite`/`leave` sections
each use the parts they read). -/
structure RoomData where
  state_events : List RawEvent := []
  timeline_events : List RawEvent := []
  invite_state_events : List RawEvent := []
deriving DecidableEq, Repr

/-- One raw sync response.  `Option`/default fields model the `.get`
defaults of the source; `mautrix_meta` models the `"net.maunium.mautrix"`
key injected by the loop (absent on the wire). -/
structure SyncPayload where
  otk_curve25519 : Nat := 0
  otk_signed_curve25519 : Nat := 0
  device_changed : List String := []
  device_left : List String := []
  account_data_events : List RawEvent := []
  ephemeral_events : List RawEvent := []
  to_device_events : List RawEvent := []
  join : List (String × RoomData) := []
  invite : List (String × RoomData) := []
  leave : List (String × RoomData) := []
  next_batch : Option String := none
  mautrix_meta : Option (Bool × Bool) := none
deriving DecidableEq, Repr

/-- One dispatch started by `handle_sync`: either one of the two synthetic
internal events, or a classified room/global event (already resolved and
tagged). -/
inductive Dispatched where
  | otkCount (curve25519 signed_curve25519 : Nat)
  | deviceLists (changed left : List String)
  | event (e : MEvent)
deriving DecidableEq, Repr

/-- The predicate of the `next(...)` generator in the invite loop: a raw
event whose type is `m.room.member` and whose state key (defaulted to `""`)
equals the local user's id. -/
def isInviteMembership (mxid : String) (r : RawEvent) : Bool :=
  r.ty == "m.room.member" && r.state_key.getD "" == mxid

/-- The `setdefault` pair applied to the located invite event: default
`event_id` to a present null and `origin_server_ts` to the current time when
the key is absent. -/
def inviteSetdefaults (now : Int) (r : RawEvent) : RawEvent :=
  { r with
    event_id := match r.event_id with | none => some none | some v => some v
    origin_server_ts := some (r.origin_server_ts.getD now) }

/-- Replace the element at position `i` (in-place mutation of the list
element the located invite aliases). -/
def listSetAt (l : List RawEvent) (i : Nat) (v : RawEvent) : List RawEvent :=
  l.set i v

/-- The invite-reconstruction algorithm for one invited room: inject the room
id into every `invite_state` event, locate the first membership event for the
local user (`none` models the `StopIteration` when absent), default its
`event_id`/`origin_server_ts`, decode it as the canonical invite and attach
every other event (every event not structurally equal to the mutated invite,
per Python `!=`) as stripped state. -/
def processInviteRoom (mxid : String) (now : Int) (room_id : String)
    (rd : RoomData) : Option MEvent :=
  let events := rd.invite_state_events.map
    (fun r => { r with room_id := some room_id })
  match events.findIdx? (isInviteMembership mxid) with
  | none => none
  | some i =>
    match events.get? i with
    | none => none
    | some raw =>
      let raw_invite := inviteSetdefaults now raw
      let events := listSetAt events i raw_invite
      let invite := StateEvent.deserialize raw_invite
      some { invite with
        invite_room_state :=
          (events.filter (fun r => r ≠ raw_invite)).map
            StrippedStateEvent.deserialize }

/-- The invite section of `handle_sync`: process invited rooms in order; a
room with no matching membership event raises, aborting the section; the
returned flag records whether the section raised. -/
def handleInvites (mxid : String) (now : Int)
    (rooms : List (String × RoomData)) : List Dispatched × Bool :=
  match rooms with
  | [] => ([], false)
  | (room_id, rd) :: rest =>
    match processInviteRoom mxid now room_id rd with
    | none => ([], true)
    | some invite =>
      let e := resolveEvent invite
        (SyncStream.union SyncStream.INVITED_ROOM SyncStream.STATE)
      let (l, err) := handleInvites mxid now rest
      (Dispatched.event e :: l, err)

/-- The sections of `handle_sync` dispatched before the invite loop: the two
synthetic internal events, then account-data, ephemeral and to-device
events, then joined rooms' state and timeline events with the room id
injected. -/
def handleSyncPre (data : SyncPayload) : List Dispatched :=
  [Dispatched.otkCount data.otk_curve25519 data.otk_signed_curve25519,
   Dispatched.deviceLists data.device_changed data.device_left]
  ++ data.account_data_events.map (fun r =>
      Dispatched.event
        (resolveEvent (AccountDataEvent.deserialize r)
          SyncStream.ACCOUNT_DATA))
  ++ data.ephemeral_events.map (fun r =>
      Dispatched.event
        (resolveEvent (EphemeralEvent.deserialize r) SyncStream.EPHEMERAL))
  ++ data.to_device_events.map (fun r =>
      Dispatched.event
        (resolveEvent (ToDeviceEvent.deserialize r) SyncStream.TO_DEVICE))
  ++ data.join.flatMap (fun p =>
      p.2.state_events.map (fun r =>
        Dispatched.event
          (resolveEvent
            (StateEvent.deserialize { r with room_id := some p.1 })
            (SyncStream.union SyncStream.JOINED_ROOM SyncStream.STATE)))
      ++ p.2.timeline_events.map (fun r =>
        Dispatched.event
          (resolveEvent (Event.deserialize { r with room_id := some p.1 })
            (SyncStream.union SyncStream.JOINED_ROOM SyncStream.TIMELINE))))

/-- The leave section of `handle_sync`: for each left room, only timeline
events whose raw object carries a `state_key` key are decoded as state
events, with the room id injected, and dispatched tagged left+timeline. -/
def handleSyncLeave (rooms : List (String × RoomData)) : List Dispatched :=
  rooms.flatMap (fun p =>
    (p.2.timeline_events.filter (fun r => r.state_key.isSome)).map (fun r =>
      Dispatched.event
        (resolveEvent (StateEvent.deserialize { r with room_id := some p.1 })
          (SyncStream.union SyncStream.LEFT_ROOM SyncStream.TIMELINE))))

/-- `Syncer.handle_sync`: classify one sync payload, dispatching eagerly
section by section.  Returns the dispatches started, in order, and whether a
classification error aborted the remaining sections. -/
def handle_sync (mxid : String) (now : Int) (data : SyncPayload) :
    List Dispatched × Bool :=
  let pre := handleSyncPre data
  let (inv, err) := handleInvites mxid now data.invite
  if err then (pre ++ inv, true)
  else (pre ++ inv ++ handleSyncLeave data.leave, false)

/-- The configuration the loop reads from the `Syncer`. -/
structure LoopConfig where
  ignore_initial_sync : Bool
  ignore_first_sync : Bool
  mxid : String
deriving DecidableEq, Repr

/-- The mutable state of one `_start` loop iteration: the backoff value, the
first-iteration flag, the in-memory cursor, and the cursor-store content. -/
structure LoopState where
  fail_sleep : Nat
  is_first : Bool
  next_batch : Option String
  stored : Option String
deriving DecidableEq, Repr

/-- The state `_start` begins with: backoff 5, first iteration, cursor loaded
from the store. -/
def initialLoopState (stored : Option String) : LoopState where
  fail_sleep := 5
  is_first := true
  next_batch := stored
  stored := stored

/-- The outcome of one `sync` request, as the loop distinguishes them:
success with a payload, a transient error, or a fatal error
(cancellation / `MUnknownToken`, re-raised). -/
inductive PollResult where
  | success (data : SyncPayload)
  | transientError
  | fatalError
deriving DecidableEq, Repr

/-- One observable action of a loop iteration, in program order. -/
inductive LoopAction where
  | pollAttempt (since : Option String)
  | syncErrored (sleep_for : Nat)
  | sleepFor (d : Nat)
  | putNextBatch (v : Option String)
  | syncSuccessful (data : SyncPayload)
  | dispatchBatch (items : List Dispatched) (classError : Bool)
  | skipBatch
deriving DecidableEq, Repr

/-- Python falsiness of the cursor (`not next_batch`): `None` or `""`. -/
def isEmptyCursor : Option String → Bool
  | none => true
  | some s => s == ""

/-- One iteration of the `while True` loop of `_start`: poll with the current
cursor; on a transient error emit the errored event, sleep the current
backoff and double it below the 320 cap; on success reset the backoff,
augment the payload in place with the initial/first flags, advance and
persist the cursor, emit the successful event, then either skip the batch
under a suppression flag or classify and dispatch it, catching
classification errors.  A fatal error ends the loop (`none`). -/
def loopStep (cfg : LoopConfig) (now : Int) (st : LoopState)
    (res : PollResult) : Option LoopState × List LoopAction :=
  match res with
  | .fatalError => (none, [LoopAction.pollAttempt st.next_batch])
  | .transientError =>
    (some { st with
        fail_sleep :=
          if st.fail_sleep < 320 then st.fail_sleep * 2 else st.fail_sleep },
     [LoopAction.pollAttempt st.next_batch,
      LoopAction.syncErrored st.fail_sleep,
      LoopAction.sleepFor st.fail_sleep])
  | .success data =>
    let is_initial := isEmptyCursor st.next_batch
    let data := { data with mautrix_meta := some (is_initial, st.is_first) }
    let nb := data.next_batch
    let base :=
      [LoopAction.pollAttempt st.next_batch,
       LoopAction.putNextBatch nb,
       LoopAction.syncSuccessful data]
    if (cfg.ignore_first_sync && st.is_first)
        || (cfg.ignore_initial_sync && is_initial) then
      (some { fail_sleep := 5, is_first := false, next_batch := nb,
              stored := nb },
       base ++ [LoopAction.skipBatch])
    else
      let hs := handle_sync cfg.mxid now data
      (some { fail_sleep := 5, is_first := false, next_batch := nb,
              stored := nb },
       base ++ [LoopAction.dispatchBatch hs.1 hs.2])

/-- Run the loop over a finite prefix of poll outcomes, concatenating the
actions of every iteration; a fatal outcome ends the run. -/
def runLoop (cfg : LoopConfig) (now : Int) (st : LoopState) :
    List PollResult → LoopState × List LoopAction
  | [] => (st, [])
  | r :: rs =>
    match loopStep cfg now st r with
    | (none, acts) => (st, acts)
    | (some st2, acts) =>
      let rest := runLoop cfg now st2 rs
      (rest.1, acts ++ rest.2)

/-- Whether an action starts handler invocations. -/
def startsHandlers : LoopAction → Bool
  | .syncErrored _ => true
  | .syncSuccessful _ => true
  | .dispatchBatch _ _ => true
  | _ => false

/-- Whether an action persists the cursor. -/
def isPutNextBatch : LoopAction → Bool
  | .putNextBatch _ => true
  | _ => false

/-- The sleeps an action list performs, in order. -/
def sleepsOf (acts : List LoopAction) : List Nat :=
  acts.filterMap (fun a => match a with | .sleepFor d => some d | _ => none)

/-- The room/global (non-internal) events an action list dispatches. -/
def dispatchedEvents (acts : List LoopAction) : List MEvent :=
  acts.flatMap (fun a =>
    match a with
    | .dispatchBatch items _ =>
      items.filterMap (fun d =>
        match d with | Dispatched.event e => some e | _ => none)
    | _ => [])

/-- Claim C1: for every sync response accepted by the loop, the new cursor
(`next_batch`) is persisted to the cursor store before any handler
invocation for that batch is started, unconditionally — in the iteration's
action sequence, the persist of the response's `next_batch` occurs strictly
before the first action that starts handlers, and the stored cursor of the
resulting state is the response's `next_batch`, whether or not the batch's
dispatch is suppressed or ends in a classification error. -/
theorem C1_cursor_persisted_before_handlers (cfg : LoopConfig) (now : Int)
    (st : LoopState) (data : SyncPayload) :
    LoopAction.putNextBatch data.next_batch ∈
        ((loopStep cfg now st (PollResult.success data)).2.takeWhile
          (fun a => !startsHandlers a))
    ∧ ∃ st2, (loopStep cfg now st (PollResult.success data)).1 = some st2
        ∧ st2.stored = data.next_batch := by
  constructor
  · simp only [loopStep]
    split
    · simp [List.takeWhile, startsHandlers]
    · simp [List.takeWhile, startsHandlers]
  · simp only [loopStep]
    split
    · exact ⟨_, rfl, rfl⟩
    · exact ⟨_, rfl, rfl⟩

/-- Claim C10: before the internal sync-successful event is emitted for a
batch, the raw payload is augmented in place with the metadata entry holding
`is_initial` (cursor empty at request time) and `is_first` (first successful
iteration since start): the sync-successful emissions of a successful
iteration are exactly one, carrying the payload with that metadata set. -/
theorem C10_payload_augmented_before_sync_successful (cfg : LoopConfig)
    (now : Int) (st : LoopState) (data : SyncPayload) :
    (loopStep cfg now st (PollResult.success data)).2.filterMap
        (fun a => match a with
          | LoopAction.syncSuccessful d => some d
          | _ => none)
      = [{ data with
            mautrix_meta :=
              some (isEmptyCursor st.next_batch, st.is_first) }] := by
  simp only [loopStep]
  split
  · simp [List.filterMap]
  · simp [List.filterMap]

/-- Claim C6: on a successful iteration with first-sync suppression enabled
and the first-iteration flag set (or initial-sync suppression enabled and an
empty cursor), the internal sync-successful event is still emitted, the
persisted cursor still advances to the response's `next_batch`, but zero
room/account-data/ephemeral/to-device events are dispatched — the batch is
skipped entirely — and the loop proceeds to the next poll. -/
theorem C6_suppressed_batch_skipped (cfg : LoopConfig) (now : Int)
    (st : LoopState) (data : SyncPayload)
    (h : (cfg.ignore_first_sync = true ∧ st.is_first = true)
      ∨ (cfg.ignore_initial_sync = true
          ∧ isEmptyCursor st.next_batch = true)) :
    (∃ d, LoopAction.syncSuccessful d ∈
        (loopStep cfg now st (PollResult.success data)).2)
    ∧ LoopAction.putNextBatch data.next_batch ∈
        (loopStep cfg now st (PollResult.success data)).2
    ∧ dispatchedEvents (loopStep cfg now st (PollResult.success data)).2 = []
    ∧ (∀ items err, LoopAction.dispatchBatch items err ∉
        (loopStep cfg now st (PollResult.success data)).2)
    ∧ ∃ st2, (loopStep cfg now st (PollResult.success data)).1 = some st2
        ∧ st2.stored = data.next_batch ∧ st2.is_first = false := by
  have hcond : (cfg.ignore_first_sync && st.is_first
      || cfg.ignore_initial_sync && isEmptyCursor st.next_batch) = true := by
    rcases h with ⟨h1, h2⟩ | ⟨h1, h2⟩ <;> simp [h1, h2]
  simp only [loopStep, hcond, if_pos]
  refine ⟨⟨{ data with
      mautrix_meta := some (isEmptyCursor st.next_batch, st.is_first) },
      by simp⟩, by simp, by simp [dispatchedEvents], ?_, ⟨_, rfl, rfl, rfl⟩⟩
  intro items err
  simp

/-- Claim C7: dispatching an event starts all matching handler invocations,
global handlers scheduled before type-specific handlers with registration
order preserved inside each group, and returns to the caller exactly the
invocations whose registry entry has the wait-flag set; the rest are started
but not returned. -/
theorem C7_dispatch_order_and_waiting (s : Syncer) (event : MEvent)
    (source : SyncStream) :
    (dispatch_event s event source).2.started
      = s.global_event_handlers
        ++ (assocGet s.event_handlers
            (HKey.etype (dispatch_event s event source).1.ty)).getD []
    ∧ (dispatch_event s event source).2.waited
      = ((dispatch_event s event source).2.started.filter
          (fun hw => hw.2)).map (·.1) := by
  constructor
  · rfl
  · rfl

/-- One transient-failure iteration, written out. -/
theorem loopStep_transient (cfg : LoopConfig) (now : Int) (st : LoopState) :
    loopStep cfg now st PollResult.transientError
      = (some { st with fail_sleep :=
            if st.fail_sleep < 320 then st.fail_sleep * 2 else st.fail_sleep },
         [LoopAction.pollAttempt st.next_batch,
          LoopAction.syncErrored st.fail_sleep,
          LoopAction.sleepFor st.fail_sleep]) := rfl

/-- Doubling below the 320 cap maps `min (5 * 2 ^ k) 320` to
`min (5 * 2 ^ (k + 1)) 320`. -/
theorem backoff_double (k : Nat) :
    (if min (5 * 2 ^ k) 320 < 320 then min (5 * 2 ^ k) 320 * 2
      else min (5 * 2 ^ k) 320) = min (5 * 2 ^ (k + 1)) 320 := by
  have hpow : (2:Nat) ^ (k + 1) = 2 ^ k * 2 := pow_succ 2 k
  rcases le_or_lt k 5 with hk | hk
  · have h2 : (2:Nat) ^ k ≤ 32 := by
      calc (2:Nat) ^ k ≤ 2 ^ 5 := Nat.pow_le_pow_right (by norm_num) hk
        _ = 32 := by norm_num
    have e1 : min (5 * 2 ^ k) 320 = 5 * 2 ^ k := Nat.min_eq_left (by omega)
    have e2 : min (5 * 2 ^ (k + 1)) 320 = 5 * 2 ^ (k + 1) :=
      Nat.min_eq_left (by omega)
    rw [e1, e2, if_pos (by omega)]
    omega
  · have h6 : 6 ≤ k := hk
    have h2 : (64:Nat) ≤ 2 ^ k := by
      calc (64:Nat) = 2 ^ 6 := by norm_num
        _ ≤ 2 ^ k := Nat.pow_le_pow_right (by norm_num) h6
    have e1 : min (5 * 2 ^ k) 320 = 320 := Nat.min_eq_right (by omega)
    have e2 : min (5 * 2 ^ (k + 1)) 320 = 320 := Nat.min_eq_right (by omega)
    rw [e1, e2, if_neg (by omega)]

/-- Running `n` consecutive transient failures from a state whose backoff is
`min (5 * 2 ^ k) 320`: every iteration polls with the unchanged cursor,
reports and sleeps the current backoff, and the backoff follows the capped
doubling sequence. -/
theorem runLoop_failures (cfg : LoopConfig) (now : Int) (n : Nat) :
    ∀ (k : Nat) (st : LoopState), st.fail_sleep = min (5 * 2 ^ k) 320 →
    runLoop cfg now st (List.replicate n PollResult.transientError)
      = ({ st with fail_sleep := min (5 * 2 ^ (k + n)) 320 },
         (List.range n).flatMap (fun i =>
           [LoopAction.pollAttempt st.next_batch,
            LoopAction.syncErrored (min (5 * 2 ^ (k + i)) 320),
            LoopAction.sleepFor (min (5 * 2 ^ (k + i)) 320)])) := by
  induction n with
  | zero =>
    intro k st hst
    simp only [List.replicate, runLoop, List.range_zero, List.flatMap_nil,
      Nat.add_zero]
    cases st
    simp_all
  | succ n ih =>
    intro k st hst
    have hrep : List.replicate (n + 1) PollResult.transientError
        = PollResult.transientError ::
          List.replicate n PollResult.transientError := rfl
    rw [hrep]
    simp only [runLoop, loopStep_transient]
    have hstep : (if st.fail_sleep < 320 then st.fail_sleep * 2
        else st.fail_sleep) = min (5 * 2 ^ (k + 1)) 320 := by
      rw [hst]; exact backoff_double k
    rw [ih (k + 1) { st with fail_sleep :=
        if st.fail_sleep < 320 then st.fail_sleep * 2 else st.fail_sleep }
      (by simpa using hstep)]
    refine Prod.ext ?_ ?_
    · show ({ st with fail_sleep := min (5 * 2 ^ (k + 1 + n)) 320 }
        : LoopState) = { st with fail_sleep := min (5 * 2 ^ (k + (n + 1))) 320 }
      have : k + 1 + n = k + (n + 1) := by omega
      rw [this]
    · show ([LoopAction.pollAttempt st.next_batch,
          LoopAction.syncErrored st.fail_sleep,
          LoopAction.sleepFor st.fail_sleep]
          ++ (List.range n).flatMap (fun i =>
            [LoopAction.pollAttempt st.next_batch,
             LoopAction.syncErrored (min (5 * 2 ^ (k + 1 + i)) 320),
             LoopAction.sleepFor (min (5 * 2 ^ (k + 1 + i)) 320)]))
        = (List.range (n + 1)).flatMap (fun i =>
            [LoopAction.pollAttempt st.next_batch,
             LoopAction.syncErrored (min (5 * 2 ^ (k + i)) 320),
             LoopAction.sleepFor (min (5 * 2 ^ (k + i)) 320)])
      rw [List.range_succ_eq_map]
      simp only [List.flatMap_cons, List.flatMap_map, Nat.add_zero, hst]
      have harg : ∀ i : Nat, k + 1 + i = k + (i + 1) := fun i => by omega
      simp only [harg]

/-- Extracting the sleeps from a run of poll/errored/sleep triples. -/
theorem sleepsOf_iterations (g : Nat → Nat) (c : Option String)
    (l : List Nat) :
    sleepsOf (l.flatMap (fun i =>
      [LoopAction.pollAttempt c, LoopAction.syncErrored (g i),
       LoopAction.sleepFor (g i)])) = l.map g := by
  induction l with
  | nil => rfl
  | cons a l ih =>
    simp only [List.flatMap_cons, sleepsOf, List.filterMap_append,
      List.filterMap_cons] at *
    simp [ih]

/-- Claim C3: on repeated transient poll failures from a fresh loop the sleep
durations are `min (5 * 2 ^ i) 320` — the sequence 5, 10, 20, 40, 80, 160,
320, 320, ...; every retry polls with the same unmodified cursor and the
cursor survives the failures; and one successful response resets the next
failure's sleep to 5. -/
theorem C3_backoff_sequence (cfg : LoopConfig) (now : Int)
    (c : Option String) (n : Nat) :
    sleepsOf (runLoop cfg now (initialLoopState c)
        (List.replicate n PollResult.transientError)).2
      = (List.range n).map (fun i => min (5 * 2 ^ i) 320)
    ∧ (runLoop cfg now (initialLoopState c)
        (List.replicate n PollResult.transientError)).1.next_batch = c
    ∧ (∀ s, LoopAction.pollAttempt s ∈ (runLoop cfg now (initialLoopState c)
        (List.replicate n PollResult.transientError)).2 → s = c)
    ∧ (∀ (st : LoopState) (data : SyncPayload) (st2 : LoopState),
        (loopStep cfg now st (PollResult.success data)).1 = some st2 →
        st2.fail_sleep = 5) := by
  have h0 : (initialLoopState c).fail_sleep = min (5 * 2 ^ 0) 320 := by
    simp [initialLoopState]
  have hrun := runLoop_failures cfg now n 0 (initialLoopState c) h0
  refine ⟨?_, ?_, ?_, ?_⟩
  · rw [hrun]
    simpa [initialLoopState] using
      sleepsOf_iterations (fun i => min (5 * 2 ^ i) 320) c (List.range n)
  · rw [hrun]
    simp [initialLoopState]
  · rw [hrun]
    intro s hs
    simp [initialLoopState, List.mem_flatMap] at hs
    exact hs.2
  · intro st data st2 h
    simp only [loopStep] at h
    split at h <;> · cases h; rfl

/-- Witness for C3 at a concrete run: eight consecutive transient failures
sleep 5, 10, 20, 40, 80, 160, 320, 320 and keep the cursor. -/
theorem C3_backoff_sequence_witness :
    sleepsOf (runLoop ⟨false, false, "@me:x"⟩ 0 (initialLoopState (some "T1"))
        (List.replicate 8 PollResult.transientError)).2
      = [5, 10, 20, 40, 80, 160, 320, 320]
    ∧ (runLoop ⟨false, false, "@me:x"⟩ 0 (initialLoopState (some "T1"))
        (List.replicate 8 PollResult.transientError)).1.next_batch
      = some "T1" :=
  ⟨(C3_backoff_sequence ⟨false, false, "@me:x"⟩ 0 (some "T1") 8).1.trans
      (by decide),
   (C3_backoff_sequence ⟨false, false, "@me:x"⟩ 0 (some "T1") 8).2.1⟩

/-- Witness for C6 at a concrete iteration: with first-sync suppression on,
the first successful batch is skipped but the cursor still advances. -/
theorem C6_suppressed_batch_skipped_witness :
    dispatchedEvents (loopStep ⟨false, true, "@me:x"⟩ 0
        ⟨5, true, some "T1", some "T1"⟩
        (PollResult.success { next_batch := some "T2" })).2 = []
    ∧ ∃ st2, (loopStep ⟨false, true, "@me:x"⟩ 0
        ⟨5, true, some "T1", some "T1"⟩
        (PollResult.success { next_batch := some "T2" })).1 = some st2
      ∧ st2.stored = some "T2" ∧ st2.is_first = false :=
  ⟨(C6_suppressed_batch_skipped ⟨false, true, "@me:x"⟩ 0
      ⟨5, true, some "T1", some "T1"⟩ { next_batch := some "T2" }
      (Or.inl ⟨rfl, rfl⟩)).2.2.1,
   (C6_suppressed_batch_skipped ⟨false, true, "@me:x"⟩ 0
      ⟨5, true, some "T1", some "T1"⟩ { next_batch := some "T2" }
      (Or.inl ⟨rfl, rfl⟩)).2.2.2.2⟩

/-- Claim C2 counterexample: a handler registered only with wait-flag false
is NOT removed by `remove_event_handler` — the `ValueError` of the failed
removal of the wait-flagged entry aborts the whole block — and a subsequent
dispatch still invokes it once, contradicting the claim that removal is
attempted under both flag values ignoring the absence of either. -/
theorem C2_counterexample :
    remove_event_handler
        (add_event_handler ⟨[], [], false, false, "@me:x"⟩
          (HKey.etype ⟨"m.room.message", EClass.message⟩) 1 false)
        (HKey.etype ⟨"m.room.message", EClass.message⟩) 1
      = add_event_handler ⟨[], [], false, false, "@me:x"⟩
          (HKey.etype ⟨"m.room.message", EClass.message⟩) 1 false
    ∧ (dispatch_manual_event
        (remove_event_handler
          (add_event_handler ⟨[], [], false, false, "@me:x"⟩
            (HKey.etype ⟨"m.room.message", EClass.message⟩) 1 false)
          (HKey.etype ⟨"m.room.message", EClass.message⟩) 1)
        (HKey.etype ⟨"m.room.message", EClass.message⟩) true false).started
      = [(1, false)] := by
  constructor
  · rfl
  · rfl

/-- Appending a fresh key to an association list makes `assocGet` find it. -/
theorem assocGet_append_single (m : List (HKey × List HandlerEntry))
    (t : HKey) (v : List HandlerEntry) (h : assocGet m t = none) :
    assocGet (m ++ [(t, v)]) t = some v := by
  induction m with
  | nil => simp [assocGet]
  | cons p m ih =>
    obtain ⟨k, w⟩ := p
    simp only [assocGet, List.cons_append] at h ⊢
    split at h
    · cases h
    · next hk => rw [if_neg hk]; exact ih h

/-- `assocSet` on the appended fresh key rewrites just that entry. -/
theorem assocSet_append_single (m : List (HKey × List HandlerEntry))
    (t : HKey) (v v' : List HandlerEntry) (h : assocGet m t = none) :
    assocSet (m ++ [(t, v)]) t v' = m ++ [(t, v')] := by
  induction m with
  | nil => simp [assocSet]
  | cons p m ih =>
    obtain ⟨k, w⟩ := p
    simp only [assocGet, List.cons_append] at h
    simp only [assocSet, List.cons_append]
    split at h
    · cases h
    · next hk => rw [if_neg hk]; exact congrArg ((k, w) :: ·) (ih h)

/-- `assocDel` on the appended fresh key removes just that entry. -/
theorem assocDel_append_single (m : List (HKey × List HandlerEntry))
    (t : HKey) (v : List HandlerEntry) (h : assocGet m t = none) :
    assocDel (m ++ [(t, v)]) t = m := by
  induction m with
  | nil => simp [assocDel]
  | cons p m ih =>
    obtain ⟨k, w⟩ := p
    simp only [assocGet, List.cons_append] at h
    simp only [assocDel, List.cons_append]
    split at h
    · cases h
    · next hk => rw [if_neg hk]; exact congrArg ((k, w) :: ·) (ih h)

/-- Claim C2 (amended): `remove_event_handler` attempts removal of the
wait-flagged entry first and only then of the non-wait entry, and a failed
first removal aborts the block.  Hence a handler registered twice under
different wait-flags has both entries removed and is afterwards dispatched
zero times, while a handler registered only with wait-flag false keeps its
entry and is still dispatched. -/
theorem C2_remove_handler_amended (s : Syncer) (t : HKey) (hdl : Nat)
    (a b : Bool) (hall : t ≠ HKey.etype EventType.ALL)
    (h0 : assocGet s.event_handlers t = none) (hab : a ≠ b) :
    (assocGet (remove_event_handler
          (add_event_handler (add_event_handler s t hdl a) t hdl b)
          t hdl).event_handlers t = none
      ∧ (dispatch_manual_event
          (remove_event_handler
            (add_event_handler (add_event_handler s t hdl a) t hdl b) t hdl)
          t false false).started = [])
    ∧ remove_event_handler (add_event_handler s t hdl false) t hdl
        = add_event_handler s t hdl false
    ∧ (dispatch_manual_event
        (remove_event_handler (add_event_handler s t hdl false) t hdl)
        t false false).started = [(hdl, false)] := by
  have hadd1 : ∀ c : Bool, add_event_handler s t hdl c
      = { s with event_handlers := s.event_handlers ++ [(t, [(hdl, c)])] } := by
    intro c
    simp only [add_event_handler, if_neg hall, h0]
  have hg1 : ∀ c : Bool,
      assocGet (s.event_handlers ++ [(t, [(hdl, c)])]) t = some [(hdl, c)] :=
    fun _ => assocGet_append_single _ _ _ h0
  have hadd2 : ∀ c d : Bool,
      add_event_handler (add_event_handler s t hdl c) t hdl d
      = { s with event_handlers :=
            s.event_handlers ++ [(t, [(hdl, c), (hdl, d)])] } := by
    intro c d
    rw [hadd1 c]
    simp only [add_event_handler, if_neg hall, hg1,
      assocSet_append_single _ _ _ _ h0, List.singleton_append]
  have hg2 : ∀ c d : Bool,
      assocGet (s.event_handlers ++ [(t, [(hdl, c), (hdl, d)])]) t
        = some [(hdl, c), (hdl, d)] :=
    fun _ _ => assocGet_append_single _ _ _ h0
  have honly : remove_event_handler (add_event_handler s t hdl false) t hdl
      = add_event_handler s t hdl false := by
    rw [hadd1 false]
    simp only [remove_event_handler, if_neg hall, hg1, listRemove]
    simp
  refine ⟨?_, honly, ?_⟩
  · have hrem : remove_event_handler
        (add_event_handler (add_event_handler s t hdl a) t hdl b) t hdl
        = { s with event_handlers := s.event_handlers } := by
      rw [hadd2 a b]
      cases a <;> cases b
      · exact absurd rfl hab
      · simp only [remove_event_handler, if_neg hall, hg2, listRemove]
        simp [listRemove, assocDel_append_single _ _ _ h0]
      · simp only [remove_event_handler, if_neg hall, hg2, listRemove]
        simp [listRemove, assocDel_append_single _ _ _ h0]
      · exact absurd rfl hab
    rw [hrem]
    exact ⟨h0, by simp [dispatch_manual_event, h0]⟩
  · rw [honly, hadd1 false]
    simp [dispatch_manual_event, hg1]

/-- Witness for the amended C2 at a concrete registry: registered under both
wait-flags, one removal clears both and dispatch starts nothing; registered
only with wait-flag false, removal is a no-op and dispatch starts it. -/
theorem C2_remove_handler_amended_witness :
    (dispatch_manual_event
        (remove_event_handler
          (add_event_handler
            (add_event_handler ⟨[], [], false, false, "@me:x"⟩
              (HKey.etype ⟨"m.room.message", EClass.message⟩) 1 true)
            (HKey.etype ⟨"m.room.message", EClass.message⟩) 1 false)
          (HKey.etype ⟨"m.room.message", EClass.message⟩) 1)
        (HKey.etype ⟨"m.room.message", EClass.message⟩) false false).started
      = []
    ∧ (dispatch_manual_event
        (remove_event_handler
          (add_event_handler ⟨[], [], false, false, "@me:x"⟩
            (HKey.etype ⟨"m.room.message", EClass.message⟩) 1 false)
          (HKey.etype ⟨"m.room.message", EClass.message⟩) 1)
        (HKey.etype ⟨"m.room.message", EClass.message⟩) false false).started
      = [(1, false)] :=
  ⟨(C2_remove_handler_amended ⟨[], [], false, false, "@me:x"⟩
      (HKey.etype ⟨"m.room.message", EClass.message⟩) 1 true false
      (by decide) rfl (by decide)).1.2,
   (C2_remove_handler_amended ⟨[], [], false, false, "@me:x"⟩
      (HKey.etype ⟨"m.room.message", EClass.message⟩) 1 true false
      (by decide) rfl (by decide)).2.2⟩

/-- The content-kind implied by a stream-origin tag, in the dispatcher's
test order (ephemeral, then account-data, then to-device). -/
def contentKindOf (source : SyncStream) : Option EClass :=
  if source.ephemeral then some EClass.ephemeral
  else if source.accountData then some EClass.accountData
  else if source.toDevice then some EClass.toDevice
  else none

/-- Claim C8: dispatch resolves every event's class as state when a state
key is present, else the content kind implied by the stream-origin bits,
else message; reply-fallback quoting content is stripped from message
events only, and events of any other resolved class are delivered with
unmodified content.  The hypotheses record the external codec's typing: a
message event carries no state key and never arrives on a content-kind
stream, and only message content carries a reply fallback. -/
theorem C8_class_resolution_and_trimming (e : MEvent) (source : SyncStream)
    (h1 : e.isMessage = true → e.state_key = none)
    (h2 : e.isMessage = true → contentKindOf source = none)
    (h3 : e.content.hasReplyFallback = true → e.isMessage = true) :
    (resolveEvent e source).ty.cls
      = (if e.state_key.isSome then EClass.state
          else (contentKindOf source).getD EClass.message)
    ∧ (e.isMessage = false → (resolveEvent e source).content = e.content)
    ∧ (e.isMessage = true →
        (resolveEvent e source).ty.cls = EClass.message
        ∧ (resolveEvent e source).content = trim_reply_fallback e.content)
    ∧ (resolveEvent e source).content.hasReplyFallback = false
    ∧ ((resolveEvent e source).ty.cls ≠ EClass.message →
        (resolveEvent e source).content = e.content) := by
  obtain ⟨im, ety, sk, ct, rid, eid, ts, irs, esrc⟩ := e
  dsimp only at h1 h2 h3 ⊢
  have hcls : (resolveEvent ⟨im, ety, sk, ct, rid, eid, ts, irs, esrc⟩
        source).ty.cls
      = (if sk.isSome then EClass.state
          else (contentKindOf source).getD EClass.message) := by
    cases im <;>
      simp only [resolveEvent, contentKindOf, EventType.with_class] <;>
      split_ifs <;> rfl
  have hct : (resolveEvent ⟨im, ety, sk, ct, rid, eid, ts, irs, esrc⟩
        source).content
      = (if im then trim_reply_fallback ct else ct) := by
    cases im <;>
      simp only [resolveEvent] <;>
      split_ifs <;> rfl
  refine ⟨hcls, ?_, ?_, ?_, ?_⟩
  · intro hm
    rw [hct, hm]
    rfl
  · intro hm
    have hsk := h1 hm
    have hck := h2 hm
    subst hsk
    constructor
    · rw [hcls, hck]
      rfl
    · rw [hct, hm]
      rfl
  · rw [hct]
    cases hm : im
    · cases hv : ct.hasReplyFallback
      · simp [hv]
      · rw [h3 hv] at hm
        cases hm
    · simp [trim_reply_fallback]
  · intro hne
    cases hm : im
    · rw [hm] at hct
      rw [hct]
      rfl
    · exfalso
      apply hne
      rw [hcls, h1 hm, h2 hm]
      rfl

/-- Witness for C8 at a concrete message event on the joined-timeline
stream: resolved class is message and the reply fallback is stripped. -/
theorem C8_class_resolution_and_trimming_witness :
    (resolveEvent ⟨true, ⟨"m.room.message", EClass.unknown⟩, none,
        ⟨true, "hello"⟩, none, none, none, [], none⟩
      (SyncStream.union SyncStream.JOINED_ROOM SyncStream.TIMELINE)).ty.cls
      = EClass.message
    ∧ (resolveEvent ⟨true, ⟨"m.room.message", EClass.unknown⟩, none,
        ⟨true, "hello"⟩, none, none, none, [], none⟩
      (SyncStream.union SyncStream.JOINED_ROOM
        SyncStream.TIMELINE)).content.hasReplyFallback = false :=
  ⟨((C8_class_resolution_and_trimming
      ⟨true, ⟨"m.room.message", EClass.unknown⟩, none, ⟨true, "hello"⟩,
        none, none, none, [], none⟩
      (SyncStream.union SyncStream.JOINED_ROOM SyncStream.TIMELINE)
      (fun _ => rfl) (fun _ => rfl) (fun _ => rfl)).2.2.1 rfl).1,
   (C8_class_resolution_and_trimming
      ⟨true, ⟨"m.room.message", EClass.unknown⟩, none, ⟨true, "hello"⟩,
        none, none, none, [], none⟩
      (SyncStream.union SyncStream.JOINED_ROOM SyncStream.TIMELINE)
      (fun _ => rfl) (fun _ => rfl) (fun _ => rfl)).2.2.2.1⟩

/-- Claim C5: an invited room whose `invite_state` holds exactly one event,
a membership event for the local user with no `event_id` and no
`origin_server_ts`, classifies to exactly one dispatched invite event tagged
invited+state, with an empty attached stripped-state list, `event_id`
defaulted to a present null, `origin_server_ts` defaulted to the processing
time, and the room id injected. -/
theorem C5_invite_defaults (mxid rid : String) (now : Int) (r : RawEvent)
    (h1 : r.ty = "m.room.member") (h2 : r.state_key = some mxid)
    (h3 : r.event_id = none) (h4 : r.origin_server_ts = none) :
    handle_sync mxid now { invite := [(rid, { invite_state_events := [r] })] }
      = ([Dispatched.otkCount 0 0, Dispatched.deviceLists [] [],
          Dispatched.event
            ⟨false, ⟨"m.room.member", EClass.state⟩, some mxid, r.content,
              some rid, some none, some now, [],
              some (SyncStream.union SyncStream.INVITED_ROOM
                SyncStream.STATE)⟩],
         false) := by
  obtain ⟨rty, rsk, rct, rrid, reid, rts⟩ := r
  dsimp only at h1 h2 h3 h4 ⊢
  subst h1 h2 h3 h4
  simp [handle_sync, handleSyncPre, handleInvites, processInviteRoom,
    isInviteMembership, inviteSetdefaults, listSetAt, handleSyncLeave,
    List.findIdx?, StateEvent.deserialize, resolveEvent,
    EventType.with_class, SyncStream.union, SyncStream.INVITED_ROOM,
    SyncStream.STATE, List.filter]

/-- Witness for C5 at the spec's concrete scenario. -/
theorem C5_invite_defaults_witness :
    handle_sync "@me:x" 12345
        { invite := [("!r:x", { invite_state_events :=
            [⟨"m.room.member", some "@me:x", ⟨false, "c"⟩, none, none,
              none⟩] })] }
      = ([Dispatched.otkCount 0 0, Dispatched.deviceLists [] [],
          Dispatched.event
            ⟨false, ⟨"m.room.member", EClass.state⟩, some "@me:x",
              ⟨false, "c"⟩, some "!r:x", some none, some 12345, [],
              some (SyncStream.union SyncStream.INVITED_ROOM
                SyncStream.STATE)⟩],
         false) :=
  C5_invite_defaults "@me:x" "!r:x" 12345
    ⟨"m.room.member", some "@me:x", ⟨false, "c"⟩, none, none, none⟩
    rfl rfl rfl rfl

/-- `resolveEvent` never changes the state key. -/
theorem resolveEvent_state_key (e : MEvent) (source : SyncStream) :
    (resolveEvent e source).state_key = e.state_key := by
  simp only [resolveEvent]
  split_ifs <;> rfl

/-- `resolveEvent` attaches exactly the given source tag. -/
theorem resolveEvent_source (e : MEvent) (source : SyncStream) :
    (resolveEvent e source).source = some source := by
  simp only [resolveEvent]

/-- Claim C9: for left rooms, exactly the timeline events carrying a state
key are dispatched — each such event is dispatched tagged left+timeline with
the room id injected, and every event dispatched from a leave-only payload
carries a state key and the left+timeline tag. -/
theorem C9_left_room_filter (mxid : String) (now : Int)
    (rooms : List (String × RoomData)) :
    (handle_sync mxid now { leave := rooms }).2 = false
    ∧ (∀ p ∈ rooms, ∀ r ∈ p.2.timeline_events, r.state_key.isSome = true →
        Dispatched.event (resolveEvent
            (StateEvent.deserialize { r with room_id := some p.1 })
            (SyncStream.union SyncStream.LEFT_ROOM SyncStream.TIMELINE))
          ∈ (handle_sync mxid now { leave := rooms }).1)
    ∧ (∀ e : MEvent,
        Dispatched.event e ∈ (handle_sync mxid now { leave := rooms }).1 →
        e.state_key.isSome = true
        ∧ e.source = some (SyncStream.union SyncStream.LEFT_ROOM
            SyncStream.TIMELINE)) := by
  have hsimp : handle_sync mxid now { leave := rooms }
      = ([Dispatched.otkCount 0 0, Dispatched.deviceLists [] []]
          ++ handleSyncLeave rooms, false) := by
    simp [handle_sync, handleSyncPre, handleInvites]
  refine ⟨by rw [hsimp], ?_, ?_⟩
  · intro p hp r hr hsk
    rw [hsimp]
    simp only [handleSyncLeave, List.mem_append, List.mem_flatMap,
      List.mem_map, List.mem_filter, List.mem_cons]
    exact Or.inr ⟨p, hp, r, ⟨hr, hsk⟩, rfl⟩
  · intro e he
    rw [hsimp] at he
    simp only [handleSyncLeave, List.mem_append, List.mem_flatMap,
      List.mem_map, List.mem_filter, List.mem_cons, List.not_mem_nil,
      or_false] at he
    rcases he with (h | h) | h
    · exact absurd h (by simp)
    · exact absurd h (by simp)
    · obtain ⟨p, hp, r, ⟨hrmem, hsk⟩, heq⟩ := h
      injection heq with heq
      subst heq
      rw [resolveEvent_state_key, resolveEvent_source]
      exact ⟨hsk, rfl⟩

/-- Witness for C9: a state-keyed left-room timeline event is dispatched
with the room id injected and the left+timeline tag. -/
theorem C9_left_room_filter_witness :
    Dispatched.event (resolveEvent
        (StateEvent.deserialize
          ⟨"m.room.member", some "@me:x", ⟨false, "c"⟩, some "!left:x",
            none, none⟩)
        (SyncStream.union SyncStream.LEFT_ROOM SyncStream.TIMELINE))
      ∈ (handle_sync "@me:x" 0
          { leave := [("!left:x", { timeline_events :=
              [⟨"m.room.member", some "@me:x", ⟨false, "c"⟩, none, none,
                none⟩] })] }).1 :=
  (C9_left_room_filter "@me:x" 0
      [("!left:x", { timeline_events :=
        [⟨"m.room.member", some "@me:x", ⟨false, "c"⟩, none, none,
          none⟩] })]).2.1
    ("!left:x", { timeline_events :=
      [⟨"m.room.member", some "@me:x", ⟨false, "c"⟩, none, none, none⟩] })
    (by simp)
    ⟨"m.room.member", some "@me:x", ⟨false, "c"⟩, none, none, none⟩
    (by simp) rfl

/-- Whether an invited room's `invite_state` holds a membership event for
the local user — the condition under which its classification succeeds. -/
def inviteOk (mxid : String) (rd : RoomData) : Bool :=
  rd.invite_state_events.any (isInviteMembership mxid)

/-- Room-id injection does not change the membership test. -/
theorem isInviteMembership_inject (mxid : String) (rid : String)
    (r : RawEvent) :
    isInviteMembership mxid { r with room_id := some rid }
      = isInviteMembership mxid r := rfl

/-- `findIdx?` finds a witness when `any` holds. -/
theorem findIdx?_some_of_any {α : Type} (p : α → Bool) (l : List α)
    (h : l.any p = true) :
    ∃ i a, l.findIdx? p = some i ∧ l.get? i = some a := by
  induction l with
  | nil => cases h
  | cons a l ih =>
    cases hp : p a
    · simp only [List.any_cons, hp, Bool.false_or] at h
      obtain ⟨i, b, hfi, hget⟩ := ih h
      exact ⟨i + 1, b, by simp [List.findIdx?_cons, hp, hfi],
        by simpa using hget⟩
    · exact ⟨0, a, by simp [List.findIdx?_cons, hp], rfl⟩

/-- A room without a matching membership event fails classification. -/
theorem processInviteRoom_none (mxid : String) (now : Int) (rid : String)
    (rd : RoomData) (h : inviteOk mxid rd = false) :
    processInviteRoom mxid now rid rd = none := by
  simp only [processInviteRoom]
  have hidx : (rd.invite_state_events.map
      (fun r => { r with room_id := some rid })).findIdx?
      (isInviteMembership mxid) = none := by
    rw [List.findIdx?_eq_none_iff]
    intro r hr
    simp only [List.mem_map] at hr
    obtain ⟨r0, hr0, hmap⟩ := hr
    subst hmap
    rw [isInviteMembership_inject]
    simp only [inviteOk, List.any_eq_false] at h
    exact Bool.eq_false_iff.mpr (h r0 hr0)
  rw [hidx]

/-- A room with a matching membership event yields a classified invite. -/
theorem processInviteRoom_some (mxid : String) (now : Int) (rid : String)
    (rd : RoomData) (h : inviteOk mxid rd = true) :
    ∃ e, processInviteRoom mxid now rid rd = some e := by
  have hany : (rd.invite_state_events.map
      (fun r => { r with room_id := some rid })).any
      (isInviteMembership mxid) = true := by
    rw [List.any_map]
    have : (isInviteMembership mxid ∘
        fun r => { r with room_id := some rid })
        = isInviteMembership mxid := by
      funext r
      exact isInviteMembership_inject mxid rid r
    rw [this]
    exact h
  obtain ⟨i, a, hfi, hget⟩ := findIdx?_some_of_any _ _ hany
  simp only [processInviteRoom, hfi, hget]
  exact ⟨_, rfl⟩

/-- `handleInvites` on good rooms followed by a failing room dispatches
exactly the good rooms' invites and reports the error. -/
theorem handleInvites_ok_append (mxid : String) (now : Int)
    (good : List (String × RoomData)) (bad : String × RoomData)
    (rest : List (String × RoomData))
    (hg : ∀ p ∈ good, inviteOk mxid p.2 = true)
    (hb : inviteOk mxid bad.2 = false) :
    handleInvites mxid now (good ++ bad :: rest)
      = ((handleInvites mxid now good).1, true) := by
  induction good with
  | nil =>
    simp [handleInvites, processInviteRoom_none mxid now bad.1 bad.2 hb]
  | cons p good ih =>
    obtain ⟨e, he⟩ :=
      processInviteRoom_some mxid now p.1 p.2 (hg p (List.mem_cons_self p good))
    have ih' := ih (fun q hq => hg q (List.mem_cons_of_mem p hq))
    simp only [List.cons_append, handleInvites, he, List.append_eq, ih']

/-- Claim C4: a classification failure in one batch (an invited room with no
membership event for the local user) aborts classification of the remaining
sections — the dispatched list stops after the invites of the rooms before
the failing one, so no leave-section event is dispatched — but the
dispatches already started for earlier sections stand, beginning with the
internal one-time-key-count and device-list events; the error is caught at
the loop level and the loop continues to the next poll. -/
theorem C4_classification_abort (cfg : LoopConfig) (now : Int)
    (st : LoopState) (data : SyncPayload)
    (good : List (String × RoomData)) (bad : String × RoomData)
    (rest : List (String × RoomData))
    (hsplit : data.invite = good ++ bad :: rest)
    (hg : ∀ p ∈ good, inviteOk cfg.mxid p.2 = true)
    (hb : inviteOk cfg.mxid bad.2 = false) :
    (handle_sync cfg.mxid now data).2 = true
    ∧ (handle_sync cfg.mxid now data).1
        = handleSyncPre data ++ (handleInvites cfg.mxid now good).1
    ∧ (handle_sync cfg.mxid now data).1.take 2
        = [Dispatched.otkCount data.otk_curve25519
            data.otk_signed_curve25519,
           Dispatched.deviceLists data.device_changed data.device_left]
    ∧ (loopStep cfg now st (PollResult.success data)).1.isSome = true := by
  have hinv := handleInvites_ok_append cfg.mxid now good bad rest hg hb
  have hhs : handle_sync cfg.mxid now data
      = (handleSyncPre data ++ (handleInvites cfg.mxid now good).1,
         true) := by
    simp only [handle_sync, hsplit, hinv]
    rw [if_pos trivial]
  refine ⟨by rw [hhs], by rw [hhs], ?_, ?_⟩
  · rw [hhs]
    rfl
  · simp only [loopStep]
    split
    · rfl
    · rfl

/-- Witness for C4: a payload whose only invited room lacks any
invite-state events errors after the two internal dispatches, and the loop
still advances. -/
theorem C4_classification_abort_witness :
    (handle_sync "@me:x" 0
        { invite := [("!bad:x", { invite_state_events := [] })] }).2 = true
    ∧ (handle_sync "@me:x" 0
        { invite := [("!bad:x", { invite_state_events := [] })] }).1.take 2
      = [Dispatched.otkCount 0 0, Dispatched.deviceLists [] []] :=
  ⟨(C4_classification_abort ⟨false, false, "@me:x"⟩ 0 ⟨5, true, none, none⟩
      { invite := [("!bad:x", { invite_state_events := [] })] }
      [] ("!bad:x", { invite_state_events := [] }) [] rfl
      (fun _ hp => nomatch hp) rfl).1,
   (C4_classification_abort ⟨false, false, "@me:x"⟩ 0 ⟨5, true, none, none⟩
      { invite := [("!bad:x", { invite_state_events := [] })] }
      [] ("!bad:x", { invite_state_events := [] }) [] rfl
      (fun _ hp => nomatch hp) rfl).2.2.1⟩
